import Mathlib

/-!
Shallow embedding of the order-matching core of finex-go (Go package
`matching`: the `Order`, `Key` and `Trade` records, the `Match` function
and the two red-black-tree comparators).

Modelling conventions:
* `decimal.Decimal` (shopspring, arbitrary-precision decimal) is modelled
  as an exact rational `ℚ`; every operation used by the source
  (Add, Sub, Mul, Min, Equal, LessThan, GreaterThan, GreaterThanOrEqual)
  is exact on decimals, so `ℚ` is a faithful carrier.
* `decimal.NullDecimal` is a validity flag plus the embedded decimal;
  the source reads the `.Decimal` field without consulting `.Valid`,
  and the Go zero value of the embedded decimal is `0`.
* `time.Time` is modelled as an integer timestamp (`Before` = `<`,
  `After` = `>`); `time.Now()` becomes an explicit `now` argument.
* `log.Fatalf` aborts the process, so a call that reaches it is modelled
  as an explicit result (`MatchResult.fatal`, resp. `none` for the
  comparators) carrying no trade and no updated state.
* Go mutates `maker`/`taker` in place through pointers; the embedding
  returns the updated copies of both orders in the result.
-/

namespace Matching

/-- Side is the orders' side: `sell` is the ask side, `buy` the bid side. -/
inductive Side where
  | sell
  | buy
deriving DecidableEq

/-- decimal.NullDecimal: an embedded decimal plus a validity flag.
The Go zero value of the embedded decimal is 0. -/
structure NullDecimal where
  valid : Bool
  decimal : ℚ
deriving DecidableEq

/-- The Go zero value of `NullDecimal`: absent (`Valid = false`), decimal 0. -/
def NullDecimal.absent : NullDecimal := ⟨false, 0⟩

/-- The `Order` struct of the matching package. -/
structure Order where
  ID : ℕ
  Symbol : String
  MemberID : ℕ
  Side : Side
  Price : NullDecimal
  StopPrice : NullDecimal
  Quantity : ℚ
  FilledQuantity : ℚ
  ImmediateOrCancel : Bool
  CreatedAt : ℤ
deriving DecidableEq

/-- `Key` is used to sort orders in the red black tree. -/
structure Key where
  ID : ℕ
  Side : Side
  Price : NullDecimal
  StopPrice : NullDecimal
  CreatedAt : ℤ
deriving DecidableEq

/-- The `Trade` record returned by `Match` (fields as in the struct
literal the source builds). -/
structure Trade where
  Symbol : String
  Price : ℚ
  Quantity : ℚ
  Total : ℚ
  MakerOrderID : ℕ
  TakerOrderID : ℕ
  MakerID : ℕ
  TakerID : ℕ
  CreatedAt : ℤ
deriving DecidableEq

/-- shopspring `decimal.Min` on two arguments: the first argument, replaced
by the second when the second compares smaller. -/
def decimalMin (a b : ℚ) : ℚ := if b < a then b else a

/-- `(o *Order) Key()`: the source's struct literal initializes only
`ID`, `Side`, `Price` and `CreatedAt`; the omitted `StopPrice` field is
therefore the Go zero value (`NullDecimal.absent`). -/
def Order.Key (o : Order) : Key :=
  { ID := o.ID
    Side := o.Side
    Price := o.Price
    StopPrice := NullDecimal.absent
    CreatedAt := o.CreatedAt }

/-- `Filled` returns true when the filled quantity equals the quantity. -/
def Order.Filled (o : Order) : Bool := o.Quantity == o.FilledQuantity

/-- `PendingQuantity` is the remaining quantity. -/
def Order.PendingQuantity (o : Order) : ℚ := o.Quantity - o.FilledQuantity

/-- `Fill` adds the given quantity to the filled quantity. -/
def Order.Fill (o : Order) (quantity : ℚ) : Order :=
  { o with FilledQuantity := o.FilledQuantity + quantity }

/-- `IsLimit` returns true when the order is a limit order (price present). -/
def Order.IsLimit (o : Order) : Bool := o.Price.valid

/-- `IsMarket` returns true when the order is a market order (price absent). -/
def Order.IsMarket (o : Order) : Bool := !o.Price.valid

/-- Result of one `Match` call: the process abort (`log.Fatalf`) on a
same-side pair, no trade, or a trade together with the updated maker and
taker (the source mutates both orders through pointers). -/
inductive MatchResult where
  | fatal
  | noTrade (maker taker : Order)
  | matched (trade : Trade) (maker taker : Order)
deriving DecidableEq

/-- The bid order of a maker/taker pair, as assigned by the
`switch maker.Side` in `Match`. -/
def bidOrderOf (maker taker : Order) : Order :=
  if maker.Side = Side.buy then maker else taker

/-- The ask order of a maker/taker pair, as assigned by the
`switch maker.Side` in `Match`. -/
def askOrderOf (maker taker : Order) : Order :=
  if maker.Side = Side.buy then taker else maker

/-- The trade-producing tail of `Match` (both the limit-taker and the
market-taker arms run this same block): fill both orders by the minimum
pending quantity and build the `Trade` literal. The updated maker/taker
are reported in maker/taker orientation. -/
def mkMatched (maker taker bidOrder askOrder : Order) (now : ℤ) : MatchResult :=
  let filledQuantity := decimalMin bidOrder.PendingQuantity askOrder.PendingQuantity
  let total := filledQuantity * maker.Price.decimal
  let bidOrder' := bidOrder.Fill filledQuantity
  let askOrder' := askOrder.Fill filledQuantity
  let trade : Trade :=
    { Symbol := maker.Symbol
      Price := maker.Price.decimal
      Quantity := filledQuantity
      Total := total
      MakerOrderID := maker.ID
      TakerOrderID := taker.ID
      MakerID := maker.MemberID
      TakerID := taker.MemberID
      CreatedAt := now }
  if maker.Side = Side.buy then
    MatchResult.matched trade bidOrder' askOrder'
  else
    MatchResult.matched trade askOrder' bidOrder'

/-- `(o *Order) Match(taker *Order) *Trade`: `o` is the maker. Same side
is a contract violation (`log.Fatalf`, modelled as `fatal`); a limit
taker trades iff `bid.Price.Decimal ≥ ask.Price.Decimal`; a market taker
always trades. -/
def Order.Match (o taker : Order) (now : ℤ) : MatchResult :=
  let maker := o
  if maker.Side = taker.Side then
    MatchResult.fatal
  else
    let bidOrder := bidOrderOf maker taker
    let askOrder := askOrderOf maker taker
    if taker.IsLimit then
      if askOrder.Price.decimal ≤ bidOrder.Price.decimal then
        mkMatched maker taker bidOrder askOrder now
      else
        MatchResult.noTrade maker taker
    else
      mkMatched maker taker bidOrder askOrder now

/-- Observer: did a `Match` call produce a trade? -/
def producesTrade : MatchResult → Bool
  | MatchResult.matched _ _ _ => true
  | _ => false

/-- gods `utils.UInt64Comparator`: -1, 0 or 1 by natural order. -/
def UInt64Comparator (a b : ℕ) : ℤ :=
  if a < b then -1 else if b < a then 1 else 0

/-- `Comparator` compares two `Key`s of the same side (price ordering).
Different sides hit `log.Fatalf` (process abort), modelled as `none`.
Result 1 means the first key ranks above the second (the maximum element
of the tree is the best order of its side). -/
def Comparator (a b : Key) : Option ℤ :=
  if a.Side ≠ b.Side then none
  else if a.ID = b.ID then some 0
  else if a.Side = Side.sell ∧ a.Price.decimal < b.Price.decimal then some 1
  else if a.Side = Side.sell ∧ b.Price.decimal < a.Price.decimal then some (-1)
  else if a.Side = Side.buy ∧ a.Price.decimal < b.Price.decimal then some (-1)
  else if a.Side = Side.buy ∧ b.Price.decimal < a.Price.decimal then some 1
  else if a.CreatedAt < b.CreatedAt then some 1
  else if b.CreatedAt < a.CreatedAt then some (-1)
  else some (UInt64Comparator a.ID b.ID * -1)

/-- `StopComparator`: identical to `Comparator` but on the stop price. -/
def StopComparator (a b : Key) : Option ℤ :=
  if a.Side ≠ b.Side then none
  else if a.ID = b.ID then some 0
  else if a.Side = Side.sell ∧ a.StopPrice.decimal < b.StopPrice.decimal then some 1
  else if a.Side = Side.sell ∧ b.StopPrice.decimal < a.StopPrice.decimal then some (-1)
  else if a.Side = Side.buy ∧ a.StopPrice.decimal < b.StopPrice.decimal then some (-1)
  else if a.Side = Side.buy ∧ b.StopPrice.decimal < a.StopPrice.decimal then some 1
  else if a.CreatedAt < b.CreatedAt then some 1
  else if b.CreatedAt < a.CreatedAt then some (-1)
  else some (UInt64Comparator a.ID b.ID * -1)

/-- The fill invariant of the data model: `0 ≤ filled_quantity ≤ quantity`. -/
def FillInvariant (o : Order) : Prop :=
  0 ≤ o.FilledQuantity ∧ o.FilledQuantity ≤ o.Quantity

/-- The fill invariant holds of both orders carried by a `Match` result. -/
def ResultInvariant : MatchResult → Prop
  | MatchResult.fatal => True
  | MatchResult.noTrade m t => FillInvariant m ∧ FillInvariant t
  | MatchResult.matched _ m t => FillInvariant m ∧ FillInvariant t

/-- Price-time-priority rank: `a` ranks strictly above `b` (same side):
better price for the side, then earlier creation, then lower ID. -/
def RanksAbove (a b : Key) : Prop :=
  (if a.Side = Side.sell
    then a.Price.decimal < b.Price.decimal
    else b.Price.decimal < a.Price.decimal)
  ∨ (a.Price.decimal = b.Price.decimal ∧
      (a.CreatedAt < b.CreatedAt ∨ (a.CreatedAt = b.CreatedAt ∧ a.ID < b.ID)))

def sellMaker50 : Order :=
  { ID := 1, Symbol := "btcusd", MemberID := 10, Side := Side.sell,
    Price := ⟨true, 50⟩, StopPrice := NullDecimal.absent,
    Quantity := 5, FilledQuantity := 0, ImmediateOrCancel := false, CreatedAt := 100 }

def buyTaker51 : Order :=
  { ID := 2, Symbol := "btcusd", MemberID := 11, Side := Side.buy,
    Price := ⟨true, 51⟩, StopPrice := NullDecimal.absent,
    Quantity := 3, FilledQuantity := 0, ImmediateOrCancel := false, CreatedAt := 101 }

def buyMaker100 : Order :=
  { ID := 3, Symbol := "btcusd", MemberID := 12, Side := Side.buy,
    Price := ⟨true, 100⟩, StopPrice := NullDecimal.absent,
    Quantity := 4, FilledQuantity := 0, ImmediateOrCancel := false, CreatedAt := 100 }

def marketSellTaker : Order :=
  { ID := 4, Symbol := "btcusd", MemberID := 13, Side := Side.sell,
    Price := NullDecimal.absent, StopPrice := NullDecimal.absent,
    Quantity := 10, FilledQuantity := 0, ImmediateOrCancel := false, CreatedAt := 101 }

def marketSellMaker : Order :=
  { ID := 5, Symbol := "btcusd", MemberID := 14, Side := Side.sell,
    Price := NullDecimal.absent, StopPrice := NullDecimal.absent,
    Quantity := 2, FilledQuantity := 0, ImmediateOrCancel := false, CreatedAt := 90 }

def limitBuyTaker7 : Order :=
  { ID := 6, Symbol := "btcusd", MemberID := 15, Side := Side.buy,
    Price := ⟨true, 7⟩, StopPrice := NullDecimal.absent,
    Quantity := 1, FilledQuantity := 0, ImmediateOrCancel := false, CreatedAt := 95 }

def stopOrderExample : Order :=
  { ID := 7, Symbol := "btcusd", MemberID := 16, Side := Side.sell,
    Price := ⟨true, 10⟩, StopPrice := ⟨true, 90⟩,
    Quantity := 1, FilledQuantity := 0, ImmediateOrCancel := false, CreatedAt := 50 }

def exTrade : Trade :=
  { Symbol := "btcusd", Price := 100, Quantity := 4, Total := 400,
    MakerOrderID := 3, TakerOrderID := 4, MakerID := 12, TakerID := 13, CreatedAt := 0 }

def exMakerFilled : Order := { buyMaker100 with FilledQuantity := 4 }

def exTakerFilled : Order := { marketSellTaker with FilledQuantity := 4 }

def kSell1 : Key :=
  { ID := 1, Side := Side.sell, Price := ⟨true, 50⟩,
    StopPrice := NullDecimal.absent, CreatedAt := 5 }

def kSell2 : Key :=
  { ID := 2, Side := Side.sell, Price := ⟨true, 51⟩,
    StopPrice := NullDecimal.absent, CreatedAt := 6 }

def kSell3 : Key :=
  { ID := 3, Side := Side.sell, Price := ⟨true, 52⟩,
    StopPrice := NullDecimal.absent, CreatedAt := 7 }

lemma match_eq_of_side_ne {maker taker : Order} (now : ℤ)
    (h : maker.Side ≠ taker.Side) :
    maker.Match taker now =
      if taker.IsLimit then
        if (askOrderOf maker taker).Price.decimal ≤ (bidOrderOf maker taker).Price.decimal then
          mkMatched maker taker (bidOrderOf maker taker) (askOrderOf maker taker) now
        else MatchResult.noTrade maker taker
      else mkMatched maker taker (bidOrderOf maker taker) (askOrderOf maker taker) now := by
  simp [Order.Match, h]

lemma mkMatched_eq (maker taker bid ask : Order) (now : ℤ) :
    mkMatched maker taker bid ask now =
      MatchResult.matched
        { Symbol := maker.Symbol
          Price := maker.Price.decimal
          Quantity := decimalMin bid.PendingQuantity ask.PendingQuantity
          Total := decimalMin bid.PendingQuantity ask.PendingQuantity * maker.Price.decimal
          MakerOrderID := maker.ID
          TakerOrderID := taker.ID
          MakerID := maker.MemberID
          TakerID := taker.MemberID
          CreatedAt := now }
        (if maker.Side = Side.buy
          then bid.Fill (decimalMin bid.PendingQuantity ask.PendingQuantity)
          else ask.Fill (decimalMin bid.PendingQuantity ask.PendingQuantity))
        (if maker.Side = Side.buy
          then ask.Fill (decimalMin bid.PendingQuantity ask.PendingQuantity)
          else bid.Fill (decimalMin bid.PendingQuantity ask.PendingQuantity)) := by
  by_cases h : maker.Side = Side.buy <;> simp [mkMatched, h]

lemma producesTrade_mkMatched (maker taker bid ask : Order) (now : ℤ) :
    producesTrade (mkMatched maker taker bid ask now) = true := by
  rw [mkMatched_eq]; rfl

lemma mkMatched_matched_inv {maker taker : Order} {now : ℤ} {t : Trade} {m' t' : Order}
    (h : mkMatched maker taker (bidOrderOf maker taker) (askOrderOf maker taker) now
      = MatchResult.matched t m' t') :
    t = { Symbol := maker.Symbol
          Price := maker.Price.decimal
          Quantity := decimalMin (bidOrderOf maker taker).PendingQuantity
            (askOrderOf maker taker).PendingQuantity
          Total := decimalMin (bidOrderOf maker taker).PendingQuantity
            (askOrderOf maker taker).PendingQuantity * maker.Price.decimal
          MakerOrderID := maker.ID
          TakerOrderID := taker.ID
          MakerID := maker.MemberID
          TakerID := taker.MemberID
          CreatedAt := now }
      ∧ m' = maker.Fill (decimalMin (bidOrderOf maker taker).PendingQuantity
            (askOrderOf maker taker).PendingQuantity)
      ∧ t' = taker.Fill (decimalMin (bidOrderOf maker taker).PendingQuantity
            (askOrderOf maker taker).PendingQuantity) := by
  rw [mkMatched_eq] at h
  by_cases hbuy : maker.Side = Side.buy
  · have hb : bidOrderOf maker taker = maker := by simp [bidOrderOf, hbuy]
    have ha : askOrderOf maker taker = taker := by simp [askOrderOf, hbuy]
    simp only [if_pos hbuy] at h
    obtain ⟨h1, h2, h3⟩ := (MatchResult.matched.injEq _ _ _ _ _ _).mp h
    refine ⟨h1.symm, ?_, ?_⟩
    · rw [← h2, hb]
    · rw [← h3, ha]
  · have hb : bidOrderOf maker taker = taker := by simp [bidOrderOf, hbuy]
    have ha : askOrderOf maker taker = maker := by simp [askOrderOf, hbuy]
    simp only [if_neg hbuy] at h
    obtain ⟨h1, h2, h3⟩ := (MatchResult.matched.injEq _ _ _ _ _ _).mp h
    refine ⟨h1.symm, ?_, ?_⟩
    · rw [← h2, ha]
    · rw [← h3, hb]

lemma match_matched_inv {maker taker : Order} {now : ℤ} {t : Trade} {m' t' : Order}
    (h : maker.Match taker now = MatchResult.matched t m' t') :
    t = { Symbol := maker.Symbol
          Price := maker.Price.decimal
          Quantity := decimalMin (bidOrderOf maker taker).PendingQuantity
            (askOrderOf maker taker).PendingQuantity
          Total := decimalMin (bidOrderOf maker taker).PendingQuantity
            (askOrderOf maker taker).PendingQuantity * maker.Price.decimal
          MakerOrderID := maker.ID
          TakerOrderID := taker.ID
          MakerID := maker.MemberID
          TakerID := taker.MemberID
          CreatedAt := now }
      ∧ m' = maker.Fill (decimalMin (bidOrderOf maker taker).PendingQuantity
            (askOrderOf maker taker).PendingQuantity)
      ∧ t' = taker.Fill (decimalMin (bidOrderOf maker taker).PendingQuantity
            (askOrderOf maker taker).PendingQuantity) := by
  have hside : maker.Side ≠ taker.Side := by
    intro hs
    rw [Order.Match, if_pos hs] at h
    exact MatchResult.noConfusion h
  rw [match_eq_of_side_ne now hside] at h
  by_cases hl : taker.IsLimit = true
  · rw [if_pos hl] at h
    by_cases hc : (askOrderOf maker taker).Price.decimal ≤ (bidOrderOf maker taker).Price.decimal
    · rw [if_pos hc] at h
      exact mkMatched_matched_inv h
    · rw [if_neg hc] at h
      exact absurd h (by simp)
  · rw [if_neg hl] at h
    exact mkMatched_matched_inv h

lemma decimalMin_le_left (a b : ℚ) : decimalMin a b ≤ a := by
  unfold decimalMin
  split_ifs with h
  · exact le_of_lt h
  · exact le_refl a

lemma decimalMin_le_right (a b : ℚ) : decimalMin a b ≤ b := by
  unfold decimalMin
  split_ifs with h
  · exact le_refl b
  · exact not_lt.mp h

lemma decimalMin_nonneg {a b : ℚ} (ha : 0 ≤ a) (hb : 0 ≤ b) : 0 ≤ decimalMin a b := by
  unfold decimalMin
  split_ifs with h
  · exact hb
  · exact ha

lemma fillInvariant_fill {o : Order} {q : ℚ} (h : FillInvariant o) (h0 : 0 ≤ q)
    (hle : q ≤ o.PendingQuantity) : FillInvariant (o.Fill q) := by
  obtain ⟨h1, h2⟩ := h
  unfold Order.PendingQuantity at hle
  unfold FillInvariant Order.Fill
  dsimp only
  constructor
  · linarith
  · linarith

lemma pending_nonneg {o : Order} (h : FillInvariant o) : 0 ≤ o.PendingQuantity := by
  unfold Order.PendingQuantity
  obtain ⟨-, h2⟩ := h
  linarith

/-- C1: for opposite-side orders with a limit taker and prices present on
both the bid and the ask, `Match` produces a trade iff the bid price is
greater than or equal to the ask price; when the crossing condition fails
it returns no trade and hands back both orders with every field unchanged. -/
theorem match_limit_taker_crossing (maker taker : Order) (now : ℤ)
    (hside : maker.Side ≠ taker.Side)
    (_hml : maker.IsLimit = true) (htl : taker.IsLimit = true) :
    (producesTrade (maker.Match taker now) = true ↔
      (askOrderOf maker taker).Price.decimal ≤ (bidOrderOf maker taker).Price.decimal)
    ∧ ((bidOrderOf maker taker).Price.decimal < (askOrderOf maker taker).Price.decimal →
        maker.Match taker now = MatchResult.noTrade maker taker) := by
  rw [match_eq_of_side_ne now hside, if_pos htl]
  constructor
  · by_cases hc : (askOrderOf maker taker).Price.decimal ≤ (bidOrderOf maker taker).Price.decimal
    · rw [if_pos hc]
      simp [producesTrade_mkMatched, hc]
    · rw [if_neg hc]
      simp [producesTrade, hc]
  · intro hlt
    rw [if_neg (not_le.mpr hlt)]

/-- C2: for opposite-side orders with a market taker, `Match` always
produces a trade — no price condition is checked. -/
theorem match_market_taker_always_trades (maker taker : Order) (now : ℤ)
    (hside : maker.Side ≠ taker.Side) (htm : taker.IsMarket = true) :
    producesTrade (maker.Match taker now) = true := by
  have hl : taker.IsLimit ≠ true := by
    unfold Order.IsMarket at htm
    unfold Order.IsLimit
    simp only [Bool.not_eq_true'] at htm
    simp [htm]
  rw [match_eq_of_side_ne now hside, if_neg hl]
  exact producesTrade_mkMatched maker taker _ _ now

/-- C3: every trade produced by `Match` has quantity equal to the minimum
of the bid and ask pending quantities, price equal to the maker's price
field, total equal to quantity times price, and carries the maker's and
taker's order IDs and member IDs. -/
theorem match_trade_fields (maker taker : Order) (now : ℤ) (t : Trade) (m' t' : Order)
    (h : maker.Match taker now = MatchResult.matched t m' t') :
    t.Quantity = decimalMin (bidOrderOf maker taker).PendingQuantity
        (askOrderOf maker taker).PendingQuantity
    ∧ t.Price = maker.Price.decimal
    ∧ t.Total = t.Quantity * t.Price
    ∧ t.MakerOrderID = maker.ID ∧ t.TakerOrderID = taker.ID
    ∧ t.MakerID = maker.MemberID ∧ t.TakerID = taker.MemberID := by
  obtain ⟨ht, -, -⟩ := match_matched_inv h
  subst ht
  exact ⟨rfl, rfl, rfl, rfl, rfl, rfl, rfl⟩

/-- C4: whenever `Match` produces a trade, the maker and the taker are
returned with their filled quantity increased by exactly the trade
quantity and every other field unchanged (the updates are record updates
of the inputs touching only `FilledQuantity`). -/
theorem match_fill_frame (maker taker : Order) (now : ℤ) (t : Trade) (m' t' : Order)
    (h : maker.Match taker now = MatchResult.matched t m' t') :
    m' = { maker with FilledQuantity := maker.FilledQuantity + t.Quantity }
    ∧ t' = { taker with FilledQuantity := taker.FilledQuantity + t.Quantity } := by
  obtain ⟨ht, hm, htk⟩ := match_matched_inv h
  subst ht
  exact ⟨hm, htk⟩

/-- C5: `Match` preserves the fill invariant `0 ≤ filled_quantity ≤
quantity` of both orders, whether or not a trade is produced. -/
theorem match_preserves_fill_invariant (maker taker : Order) (now : ℤ)
    (hside : maker.Side ≠ taker.Side)
    (hm : FillInvariant maker) (ht : FillInvariant taker) :
    ResultInvariant (maker.Match taker now) := by
  cases hres : maker.Match taker now with
  | fatal => trivial
  | noTrade m' t' =>
    rw [match_eq_of_side_ne now hside] at hres
    by_cases hl : taker.IsLimit = true
    · rw [if_pos hl] at hres
      by_cases hc : (askOrderOf maker taker).Price.decimal ≤ (bidOrderOf maker taker).Price.decimal
      · rw [if_pos hc, mkMatched_eq] at hres
        exact absurd hres (by simp)
      · rw [if_neg hc] at hres
        obtain ⟨h1, h2⟩ := (MatchResult.noTrade.injEq _ _ _ _).mp hres
        exact ⟨h1 ▸ hm, h2 ▸ ht⟩
    · rw [if_neg hl, mkMatched_eq] at hres
      exact absurd hres (by simp)
  | matched tr m' t' =>
    obtain ⟨htr, hm', ht'⟩ := match_matched_inv hres
    have hq0 : 0 ≤ decimalMin (bidOrderOf maker taker).PendingQuantity
        (askOrderOf maker taker).PendingQuantity := by
      apply decimalMin_nonneg
      · unfold bidOrderOf
        split_ifs
        · exact pending_nonneg hm
        · exact pending_nonneg ht
      · unfold askOrderOf
        split_ifs
        · exact pending_nonneg ht
        · exact pending_nonneg hm
    constructor
    · rw [hm']
      apply fillInvariant_fill hm hq0
      by_cases hbuy : maker.Side = Side.buy
      · have heq : bidOrderOf maker taker = maker := by simp [bidOrderOf, hbuy]
        rw [show maker.PendingQuantity = (bidOrderOf maker taker).PendingQuantity by rw [heq]]
        exact decimalMin_le_left _ _
      · have heq : askOrderOf maker taker = maker := by simp [askOrderOf, hbuy]
        rw [show maker.PendingQuantity = (askOrderOf maker taker).PendingQuantity by rw [heq]]
        exact decimalMin_le_right _ _
    · rw [ht']
      apply fillInvariant_fill ht hq0
      by_cases hbuy : maker.Side = Side.buy
      · have heq : askOrderOf maker taker = taker := by simp [askOrderOf, hbuy]
        rw [show taker.PendingQuantity = (askOrderOf maker taker).PendingQuantity by rw [heq]]
        exact decimalMin_le_right _ _
      · have heq : bidOrderOf maker taker = taker := by simp [bidOrderOf, hbuy]
        rw [show taker.PendingQuantity = (bidOrderOf maker taker).PendingQuantity by rw [heq]]
        exact decimalMin_le_left _ _

/-- C8: calling `Match` on two orders of the same side is detected as a
contract violation (the `log.Fatalf` abort, modelled as `fatal`): no
trade is ever produced and no updated orders are handed back. -/
theorem match_same_side_detected (maker taker : Order) (now : ℤ)
    (h : maker.Side = taker.Side) :
    maker.Match taker now = MatchResult.fatal ∧
      ∀ tr m' t', maker.Match taker now ≠ MatchResult.matched tr m' t' := by
  have hf : maker.Match taker now = MatchResult.fatal := by
    rw [Order.Match, if_pos h]
  exact ⟨hf, fun tr m' t' hcontra => MatchResult.noConfusion (hf ▸ hcontra)⟩

/-- C10: when the maker is a market order its absent price field reads as
the decimal zero, so every trade it is maker of has price 0 and total 0;
and a limit buy taker crosses such a market sell maker whenever the
taker's (bid) price is at least 0. -/
theorem match_market_maker_reads_zero_price (maker taker : Order) (now : ℤ)
    (hside : maker.Side ≠ taker.Side) (hmp : maker.Price = NullDecimal.absent) :
    (∀ t m' t', maker.Match taker now = MatchResult.matched t m' t' →
        t.Price = 0 ∧ t.Total = 0)
    ∧ (maker.Side = Side.sell → taker.IsLimit = true → 0 ≤ taker.Price.decimal →
        producesTrade (maker.Match taker now) = true) := by
  constructor
  · intro t m' t' h
    obtain ⟨ht, -, -⟩ := match_matched_inv h
    subst ht
    have hz : maker.Price.decimal = 0 := by rw [hmp]; rfl
    refine ⟨hz, ?_⟩
    show _ * maker.Price.decimal = 0
    rw [hz, mul_zero]
  · intro hs htl h0
    rw [match_eq_of_side_ne now hside, if_pos htl]
    have hnb : ¬ maker.Side = Side.buy := by simp [hs]
    have ha : askOrderOf maker taker = maker := by simp [askOrderOf, hnb]
    have hb : bidOrderOf maker taker = taker := by simp [bidOrderOf, hnb]
    rw [if_pos]
    · exact producesTrade_mkMatched maker taker _ _ now
    · rw [ha, hb, hmp]
      exact h0

lemma comparator_same_side {a b : Key} (h : a.Side = b.Side) (hid : a.ID ≠ b.ID) :
    Comparator a b =
      some (if a.Side = Side.sell ∧ a.Price.decimal < b.Price.decimal then 1
        else if a.Side = Side.sell ∧ b.Price.decimal < a.Price.decimal then -1
        else if a.Side = Side.buy ∧ a.Price.decimal < b.Price.decimal then -1
        else if a.Side = Side.buy ∧ b.Price.decimal < a.Price.decimal then 1
        else if a.CreatedAt < b.CreatedAt then 1
        else if b.CreatedAt < a.CreatedAt then -1
        else UInt64Comparator a.ID b.ID * -1) := by
  unfold Comparator
  rw [if_neg (by simp [h]), if_neg hid]
  split_ifs <;> rfl

lemma comparator_eq_zero_iff {a b : Key} (h : a.Side = b.Side) :
    Comparator a b = some 0 ↔ a.ID = b.ID := by
  constructor
  · intro hz
    by_contra hid
    rw [comparator_same_side h hid] at hz
    have := (Option.some.injEq _ _).mp hz
    revert this
    split_ifs with h1 h2 h3 h4 h5 h6 <;> try norm_num
    unfold UInt64Comparator
    split_ifs with h7 h8 <;> first | omega | norm_num
  · intro hid
    unfold Comparator
    rw [if_neg (by simp [h]), if_pos hid]

lemma comparator_pm {a b : Key} (h : a.Side = b.Side) (hid : a.ID ≠ b.ID) :
    Comparator a b = some 1 ∨ Comparator a b = some (-1) := by
  rw [comparator_same_side h hid]
  simp only [Option.some.injEq]
  split_ifs with h1 h2 h3 h4 h5 h6 <;> try norm_num
  unfold UInt64Comparator
  split_ifs with h7 h8 <;> omega

lemma comparator_one_iff {a b : Key} (h : a.Side = b.Side) (hid : a.ID ≠ b.ID) :
    Comparator a b = some 1 ↔ RanksAbove a b := by
  rw [comparator_same_side h hid]
  unfold RanksAbove UInt64Comparator
  simp only [Option.some.injEq]
  cases hs : a.Side with
  | sell =>
    simp only [hs, if_pos rfl, true_and, false_and, if_false]
    rcases lt_trichotomy a.Price.decimal b.Price.decimal with hp | hp | hp
    · simp [hp, hp.asymm]
    · simp only [hp, lt_irrefl, if_false, true_and]
      rcases lt_trichotomy a.CreatedAt b.CreatedAt with htm | htm | htm
      · simp [htm]
      · simp only [htm, lt_irrefl, if_false, true_and]
        rcases lt_trichotomy a.ID b.ID with hi | hi | hi
        · simp [hi, hi.asymm]
        · exact absurd hi hid
        · simp only [hi.asymm, hi, if_neg, if_pos]
          norm_num
      · simp only [htm.asymm, htm, if_neg, if_pos]
        norm_num
        omega
    · simp [hp, hp.asymm, hp.ne']
  | buy =>
    simp only [hs, if_pos rfl, true_and, false_and, if_false]
    rcases lt_trichotomy a.Price.decimal b.Price.decimal with hp | hp | hp
    · simp [hp, hp.asymm, hp.ne]
    · simp only [hp, lt_irrefl, if_false, true_and]
      rcases lt_trichotomy a.CreatedAt b.CreatedAt with htm | htm | htm
      · simp [htm]
      · simp only [htm, lt_irrefl, if_false, true_and]
        rcases lt_trichotomy a.ID b.ID with hi | hi | hi
        · simp [hi, hi.asymm]
        · exact absurd hi hid
        · simp only [hi.asymm, hi, if_neg, if_pos]
          norm_num
      · simp only [htm.asymm, htm, if_neg, if_pos]
        norm_num
        omega
    · simp [hp, hp.asymm]

lemma comparator_antisymm {a b : Key} (h : a.Side = b.Side) :
    ∀ r, Comparator a b = some r → Comparator b a = some (-r) := by
  intro r hr
  by_cases hid : a.ID = b.ID
  · have h1 : Comparator a b = some 0 := (comparator_eq_zero_iff h).mpr hid
    rw [h1] at hr
    obtain rfl : (0:ℤ) = r := (Option.some.injEq _ _).mp hr
    rw [neg_zero]
    exact (comparator_eq_zero_iff h.symm).mpr hid.symm
  · rw [comparator_same_side h hid] at hr
    obtain rfl := (Option.some.injEq _ _).mp hr
    rw [comparator_same_side h.symm (Ne.symm hid)]
    simp only [Option.some.injEq]
    unfold UInt64Comparator
    cases hs : a.Side with
    | sell =>
      have hbs : b.Side = Side.sell := by rw [← h, hs]
      simp only [hs, hbs, eq_self_iff_true, true_and, reduceCtorEq, false_and,
        if_true, if_false]
      split_ifs <;> first | rfl | decide | omega | (exfalso; linarith)
    | buy =>
      have hbs : b.Side = Side.buy := by rw [← h, hs]
      simp only [hs, hbs, eq_self_iff_true, true_and, reduceCtorEq, false_and,
        if_true, if_false]
      split_ifs <;> first | rfl | decide | omega | (exfalso; linarith)

lemma ranksAbove_trans {a b c : Key} (hab : a.Side = b.Side) :
    RanksAbove a b → RanksAbove b c → RanksAbove a c := by
  unfold RanksAbove
  rw [← hab]
  by_cases hs : a.Side = Side.sell
  · simp only [if_pos hs]
    rintro (h1 | ⟨hp1, h1⟩) (h2 | ⟨hp2, h2⟩)
    · exact Or.inl (h1.trans h2)
    · exact Or.inl (by rw [← hp2]; exact h1)
    · exact Or.inl (by rw [hp1]; exact h2)
    · refine Or.inr ⟨hp1.trans hp2, ?_⟩
      rcases h1 with h1 | h1 <;> rcases h2 with h2 | h2 <;> omega
  · simp only [if_neg hs]
    rintro (h1 | ⟨hp1, h1⟩) (h2 | ⟨hp2, h2⟩)
    · exact Or.inl (h2.trans h1)
    · exact Or.inl (by rw [← hp2]; exact h1)
    · exact Or.inl (by rw [hp1]; exact h2)
    · refine Or.inr ⟨hp1.trans hp2, ?_⟩
      rcases h1 with h1 | h1 <;> rcases h2 with h2 | h2 <;> omega

/-- C6: over same-side keys the price `Comparator` is a strict total
order: it returns 0 exactly on equal IDs, on distinct IDs exactly one of
"ranks above" (1) and "ranks below" (-1) holds, it is antisymmetric
(`Comparator a b = -(Comparator b a)`), and is transitive. -/
theorem comparator_strict_total_order (a b c : Key)
    (hab : a.Side = b.Side) (hbc : b.Side = c.Side) :
    (Comparator a b = some 0 ↔ a.ID = b.ID)
    ∧ (a.ID ≠ b.ID → Xor' (Comparator a b = some 1) (Comparator a b = some (-1)))
    ∧ (∀ r, Comparator a b = some r → Comparator b a = some (-r))
    ∧ (a.ID ≠ b.ID → b.ID ≠ c.ID → a.ID ≠ c.ID →
        Comparator a b = some 1 → Comparator b c = some 1 →
        Comparator a c = some 1) := by
  refine ⟨comparator_eq_zero_iff hab, ?_, comparator_antisymm hab, ?_⟩
  · intro hid
    rcases comparator_pm hab hid with h1 | h1
    · refine Or.inl ⟨h1, ?_⟩
      rw [h1]
      simp
    · refine Or.inr ⟨h1, ?_⟩
      rw [h1]
      simp
  · intro hab' hbc' hac' h1 h2
    have r1 := (comparator_one_iff hab hab').mp h1
    have r2 := (comparator_one_iff hbc hbc').mp h2
    exact (comparator_one_iff (hab.trans hbc) hac').mpr (ranksAbove_trans hab r1 r2)

/-- C7: the price `Comparator` implements price-time priority — on the
sell side a strictly lower price ranks above, on the buy side a strictly
higher price ranks above; at equal prices the earlier creation time ranks
above; at equal prices and times the lower ID ranks above. -/
theorem comparator_price_time_priority (a b : Key)
    (h : a.Side = b.Side) (hid : a.ID ≠ b.ID) :
    (a.Side = Side.sell → a.Price.decimal < b.Price.decimal →
      Comparator a b = some 1)
    ∧ (a.Side = Side.buy → b.Price.decimal < a.Price.decimal →
      Comparator a b = some 1)
    ∧ (a.Price.decimal = b.Price.decimal → a.CreatedAt < b.CreatedAt →
      Comparator a b = some 1)
    ∧ (a.Price.decimal = b.Price.decimal → a.CreatedAt = b.CreatedAt →
      a.ID < b.ID → Comparator a b = some 1) := by
  refine ⟨?_, ?_, ?_, ?_⟩
  · intro hs hp
    apply (comparator_one_iff h hid).mpr
    unfold RanksAbove
    rw [if_pos hs]
    exact Or.inl hp
  · intro hs hp
    apply (comparator_one_iff h hid).mpr
    unfold RanksAbove
    rw [if_neg (by simp [hs])]
    exact Or.inl hp
  · intro hp htm
    apply (comparator_one_iff h hid).mpr
    unfold RanksAbove
    exact Or.inr ⟨hp, Or.inl htm⟩
  · intro hp htm hi
    apply (comparator_one_iff h hid).mpr
    unfold RanksAbove
    exact Or.inr ⟨hp, Or.inr ⟨htm, hi⟩⟩

lemma match_concrete_eval : buyMaker100.Match marketSellTaker 0
    = MatchResult.matched exTrade exMakerFilled exTakerFilled := by
  norm_num [Order.Match, mkMatched, bidOrderOf, askOrderOf, Order.IsLimit,
    Order.IsMarket, Order.Fill, Order.PendingQuantity, decimalMin,
    NullDecimal.absent, reduceCtorEq,
    buyMaker100, marketSellTaker, exTrade, exMakerFilled, exTakerFilled]
  intro hc
  exact Side.noConfusion hc

/-- Witness for C1 at a sell limit maker (price 50) and a buy limit
taker (price 51). -/
theorem match_limit_taker_crossing_witness :
    sellMaker50.Side ≠ buyTaker51.Side ∧ sellMaker50.IsLimit = true ∧
      buyTaker51.IsLimit = true ∧
      ((producesTrade (sellMaker50.Match buyTaker51 0) = true ↔
          (askOrderOf sellMaker50 buyTaker51).Price.decimal ≤
            (bidOrderOf sellMaker50 buyTaker51).Price.decimal)
        ∧ ((bidOrderOf sellMaker50 buyTaker51).Price.decimal <
              (askOrderOf sellMaker50 buyTaker51).Price.decimal →
            sellMaker50.Match buyTaker51 0 =
              MatchResult.noTrade sellMaker50 buyTaker51)) :=
  ⟨by decide, rfl, rfl,
    match_limit_taker_crossing sellMaker50 buyTaker51 0 (by decide) rfl rfl⟩

/-- Witness for C2 at a buy limit maker and a market sell taker. -/
theorem match_market_taker_always_trades_witness :
    buyMaker100.Side ≠ marketSellTaker.Side ∧ marketSellTaker.IsMarket = true ∧
      producesTrade (buyMaker100.Match marketSellTaker 0) = true :=
  ⟨by decide, rfl,
    match_market_taker_always_trades buyMaker100 marketSellTaker 0 (by decide) rfl⟩

/-- Witness for C3 at the concrete matched pair of `match_concrete_eval`. -/
theorem match_trade_fields_witness :
    buyMaker100.Match marketSellTaker 0
        = MatchResult.matched exTrade exMakerFilled exTakerFilled ∧
      (exTrade.Quantity = decimalMin (bidOrderOf buyMaker100 marketSellTaker).PendingQuantity
          (askOrderOf buyMaker100 marketSellTaker).PendingQuantity
        ∧ exTrade.Price = buyMaker100.Price.decimal
        ∧ exTrade.Total = exTrade.Quantity * exTrade.Price
        ∧ exTrade.MakerOrderID = buyMaker100.ID
        ∧ exTrade.TakerOrderID = marketSellTaker.ID
        ∧ exTrade.MakerID = buyMaker100.MemberID
        ∧ exTrade.TakerID = marketSellTaker.MemberID) :=
  ⟨match_concrete_eval,
    match_trade_fields buyMaker100 marketSellTaker 0 exTrade exMakerFilled
      exTakerFilled match_concrete_eval⟩

/-- Witness for C4 at the concrete matched pair of `match_concrete_eval`. -/
theorem match_fill_frame_witness :
    buyMaker100.Match marketSellTaker 0
        = MatchResult.matched exTrade exMakerFilled exTakerFilled ∧
      (exMakerFilled = { buyMaker100 with
          FilledQuantity := buyMaker100.FilledQuantity + exTrade.Quantity }
        ∧ exTakerFilled = { marketSellTaker with
          FilledQuantity := marketSellTaker.FilledQuantity + exTrade.Quantity }) :=
  ⟨match_concrete_eval,
    match_fill_frame buyMaker100 marketSellTaker 0 exTrade exMakerFilled
      exTakerFilled match_concrete_eval⟩

/-- Witness for C5 at a buy limit maker and a market sell taker, both
satisfying the fill invariant. -/
theorem match_preserves_fill_invariant_witness :
    buyMaker100.Side ≠ marketSellTaker.Side ∧ FillInvariant buyMaker100 ∧
      FillInvariant marketSellTaker ∧
      ResultInvariant (buyMaker100.Match marketSellTaker 0) :=
  ⟨by decide, by norm_num [FillInvariant, buyMaker100],
    by norm_num [FillInvariant, marketSellTaker],
    match_preserves_fill_invariant buyMaker100 marketSellTaker 0 (by decide)
      (by norm_num [FillInvariant, buyMaker100])
      (by norm_num [FillInvariant, marketSellTaker])⟩

/-- Witness for C6 at three sell-side keys with distinct IDs. -/
theorem comparator_strict_total_order_witness :
    kSell1.Side = kSell2.Side ∧ kSell2.Side = kSell3.Side ∧
      ((Comparator kSell1 kSell2 = some 0 ↔ kSell1.ID = kSell2.ID)
        ∧ (kSell1.ID ≠ kSell2.ID →
            Xor' (Comparator kSell1 kSell2 = some 1)
              (Comparator kSell1 kSell2 = some (-1)))
        ∧ (∀ r, Comparator kSell1 kSell2 = some r →
            Comparator kSell2 kSell1 = some (-r))
        ∧ (kSell1.ID ≠ kSell2.ID → kSell2.ID ≠ kSell3.ID → kSell1.ID ≠ kSell3.ID →
            Comparator kSell1 kSell2 = some 1 → Comparator kSell2 kSell3 = some 1 →
            Comparator kSell1 kSell3 = some 1)) :=
  ⟨rfl, rfl, comparator_strict_total_order kSell1 kSell2 kSell3 rfl rfl⟩

/-- Witness for C7 at two sell-side keys with distinct IDs. -/
theorem comparator_price_time_priority_witness :
    kSell1.Side = kSell2.Side ∧ kSell1.ID ≠ kSell2.ID ∧
      ((kSell1.Side = Side.sell → kSell1.Price.decimal < kSell2.Price.decimal →
          Comparator kSell1 kSell2 = some 1)
        ∧ (kSell1.Side = Side.buy → kSell2.Price.decimal < kSell1.Price.decimal →
          Comparator kSell1 kSell2 = some 1)
        ∧ (kSell1.Price.decimal = kSell2.Price.decimal →
          kSell1.CreatedAt < kSell2.CreatedAt → Comparator kSell1 kSell2 = some 1)
        ∧ (kSell1.Price.decimal = kSell2.Price.decimal →
          kSell1.CreatedAt = kSell2.CreatedAt → kSell1.ID < kSell2.ID →
          Comparator kSell1 kSell2 = some 1)) :=
  ⟨rfl, by decide, comparator_price_time_priority kSell1 kSell2 rfl (by decide)⟩

/-- Witness for C8 at two sell-side orders. -/
theorem match_same_side_detected_witness :
    sellMaker50.Side = marketSellTaker.Side ∧
      (sellMaker50.Match marketSellTaker 0 = MatchResult.fatal ∧
        ∀ tr m' t', sellMaker50.Match marketSellTaker 0 ≠
          MatchResult.matched tr m' t') :=
  ⟨rfl, match_same_side_detected sellMaker50 marketSellTaker 0 rfl⟩

/-- Witness for C10 at a market sell maker and a limit buy taker. -/
theorem match_market_maker_reads_zero_price_witness :
    marketSellMaker.Side ≠ limitBuyTaker7.Side ∧
      marketSellMaker.Price = NullDecimal.absent ∧
      ((∀ t m' t', marketSellMaker.Match limitBuyTaker7 0 =
            MatchResult.matched t m' t' → t.Price = 0 ∧ t.Total = 0)
        ∧ (marketSellMaker.Side = Side.sell → limitBuyTaker7.IsLimit = true →
            0 ≤ limitBuyTaker7.Price.decimal →
            producesTrade (marketSellMaker.Match limitBuyTaker7 0) = true)) :=
  ⟨by decide, rfl,
    match_market_maker_reads_zero_price marketSellMaker limitBuyTaker7 0
      (by decide) rfl⟩

/-- C9: the claim that the Ordering Key derived by `Order.Key` carries the
order's stop price fails on the code: the struct literal in the source
never copies `StopPrice`, so the derived key's stop price is the zero
value (absent) even when the order has one — shown here on a concrete
order whose stop price is present (90). -/
theorem key_stop_price_not_copied :
    stopOrderExample.StopPrice = ⟨true, 90⟩ ∧
      (Order.Key stopOrderExample).StopPrice = NullDecimal.absent ∧
      (Order.Key stopOrderExample).StopPrice ≠ stopOrderExample.StopPrice := by
  refine ⟨rfl, rfl, ?_⟩
  intro hc
  have hv : (Order.Key stopOrderExample).StopPrice.valid = stopOrderExample.StopPrice.valid := by
    rw [hc]
  exact Bool.noConfusion hv

end Matching
